import Mathlib

/-!
Shallow embedding of the mk48 bot controller (`src/server/src/bot.rs`),
together with theorems checking the natural-language specification.

Conventions of the embedding:
* `f32` values (positions, distances, speeds, health seconds) are modelled
  as rationals (`ℚ`); vectors (`glam::Vec2`) as pairs of rationals.
* The external `Angle` type (a wrapped angle from the `common` crate, not
  part of the sources) is modelled from the spec as a rational number of
  degrees, wrapped into the half-open interval `[-180, 180)`; its maximal
  value `Angle::MAX` is `180`, attained by the absolute value of a wrapped
  difference of exactly opposite directions.
* External geometric primitives of the `common` crate (atan2 alias
  `Angle::from(Vec2)`, `Angle::to_vec`, `Transform` composition, the
  armament transform, the f32 vector length used by `spring`, the terrain
  sampler, the entity-data table, upgrade and spawn option queries and the
  per-turret azimuth-arc test) are supplied by an explicit environment
  structure `Env`; theorems quantify over it and concrete instances give
  plausible values at the few points they use.
* The randomness consumed by `update` is passed in explicitly as the
  outcomes of the draws the source makes (`Rand`).
-/

namespace MK48

/-- 2D vector of rationals, modelling `glam::Vec2`. -/
abbrev Vec2 := ℚ × ℚ

def vadd (a b : Vec2) : Vec2 := (a.1 + b.1, a.2 + b.2)

def vsub (a b : Vec2) : Vec2 := (a.1 - b.1, a.2 - b.2)

def vneg (a : Vec2) : Vec2 := (-a.1, -a.2)

/-- Division of a vector by a scalar, `v / c`. -/
def vdiv (a : Vec2) (c : ℚ) : Vec2 := (a.1 / c, a.2 / c)

/-- Multiplication of a vector by a scalar, `v * c`. -/
def vscale (a : Vec2) (c : ℚ) : Vec2 := (a.1 * c, a.2 * c)

/-- `Vec2::length_squared`. -/
def lengthSq (a : Vec2) : ℚ := a.1 * a.1 + a.2 * a.2

/-- Modelled from the spec: wrap an angle in degrees into `[-180, 180)`,
the semantics of the external wrapped `Angle` type of the `common` crate. -/
def wrapAngle (x : ℚ) : ℚ := x - 360 * ⌊(x + 180) / 360⌋

/-- Modelled from the spec: the largest representable angle (`Angle::MAX`),
the absolute wrapped difference of exactly opposite directions. -/
def angleMAX : ℚ := 180

/-- Modelled from the spec: wrapped difference of two angles (`Angle::sub`). -/
def angleSub (a b : ℚ) : ℚ := wrapAngle (a - b)

/-- Modelled from the spec: `Angle::abs`. -/
def angleAbs (a : ℚ) : ℚ := |a|

/-- `common::entity::EntityKind` (external data model). -/
inductive EntityKind where
  | Boat | Weapon | Aircraft | Collectible | Obstacle | Decoy
deriving DecidableEq, Repr

/-- `common::entity::EntitySubKind` (external data model); only the
sub-kinds the bot inspects are distinguished, all others are `Other`. -/
inductive EntitySubKind where
  | Ram | Submarine | Torpedo | Plane | Heli | DepthCharge
  | Rocket | Missile | Shell | Sam | Other
deriving DecidableEq, Repr

/-- A world transform: position plus facing direction. -/
structure Transform where
  position : Vec2
  direction : ℚ
deriving DecidableEq, Repr

/-- One armament slot of a vessel: the entity type it launches, the index
of the turret it is mounted on (if any) and the vertical-launch flag. -/
structure Armament where
  entityType : Nat
  turret : Option Nat
  vertical : Bool
deriving DecidableEq, Repr

/-- Modelled from the spec: a turret of the static entity-data table,
carrying its azimuth-arc test (`within_azimuth`), a predicate on the
turret angle it is given. -/
structure Turret where
  withinAzimuth : ℚ → Bool

instance : Inhabited Turret := ⟨⟨fun _ => false⟩⟩

/-- Static entity data (`common::entity::EntityData`), the immutable table
entry for one entity type. -/
structure EntityData where
  kind : EntityKind
  subKind : EntitySubKind
  maxHealthSecs : ℚ
  length : ℚ
  radius : ℚ
  speed : ℚ
  level : Nat
  armaments : List Armament
  turrets : List Turret

/-- A sensed contact (`common::contact`): identity, optional owning player,
optional resolvable entity type, transform, altitude, damage (in seconds of
health depletion), per-armament reload timers (ticks) and per-turret
current orientations. -/
structure Contact where
  id : Nat
  playerId : Option Nat
  entityType : Option Nat
  transform : Transform
  altitude : ℚ
  damageSecs : ℚ
  reloads : List Nat
  turrets : List ℚ
deriving DecidableEq, Repr

/-- Modelled from the spec: `Altitude::is_airborne` (positive altitude). -/
def isAirborne (altitude : ℚ) : Bool := decide (0 < altitude)

/-- Modelled from the spec: `Altitude::is_submerged` (negative altitude). -/
def isSubmerged (altitude : ℚ) : Bool := decide (altitude < 0)

/-- The external world the controller reads: the static entity-data table,
option queries, the terrain sampler and the geometric primitives of the
`common` crate, all external to the source under verification. -/
structure Env where
  dataOf : Nat → EntityData
  upgradeOptions : Nat → ℚ → Bool → List Nat
  spawnOptions : Bool → List Nat
  sample : Vec2 → Option ℚ
  sandLevel : ℚ
  altMin : ℚ
  angleOfVec : Vec2 → ℚ
  toVec : ℚ → Vec2
  addTransform : Transform → Transform → Transform
  armamentTransform : EntityData → List ℚ → Nat → Transform
  vecLength : Vec2 → ℚ

/-- The per-instance bot state (`struct Bot`). -/
structure Bot where
  aggression : ℚ
  aimBias : Vec2
  levelAmbition : Nat
  spawnedAtLeastOnce : Bool
deriving DecidableEq, Repr

/-- The per-tick snapshot handed to `Bot::update` (`CompleteTrait`). -/
structure Update where
  playerId : Nat
  contacts : List Contact
  worldRadius : ℚ
  score : ℚ
deriving DecidableEq, Repr

/-- The outcomes of the randomness `Bot::update` consumes: the aggression
Bernoulli draw, the rage-quit draw and the indices used by the two
uniform `choose` calls. -/
structure Rand where
  aggressionRoll : Bool
  rageRoll : Bool
  upgradeIdx : Nat
  spawnIdx : Nat
deriving DecidableEq, Repr

/-- `common::guidance::Guidance`. -/
structure Guidance where
  directionTarget : ℚ
  velocityTarget : ℚ
deriving DecidableEq, Repr

/-- The payload of a `Control` command. -/
structure ControlCmd where
  guidance : Option Guidance
  angularVelocityTarget : Option ℚ
  altitudeTarget : Option ℚ
  aimTarget : Option Vec2
  active : Bool
deriving DecidableEq, Repr

/-- The command alphabet the bot emits (`common::protocol::Command`). -/
inductive Command where
  | Control (c : ControlCmd)
  | Fire (index : Nat) (positionTarget : Vec2)
  | Spawn (entityType : Nat)
  | Upgrade (entityType : Nat)
deriving DecidableEq, Repr

/-- `IteratorRandom::choose` over a list, with the uniformly drawn index
supplied explicitly: `some` exactly when the list is non-empty. -/
def chooseFrom (l : List Nat) (k : Nat) : Option Nat :=
  if l.isEmpty then none else l.get? (k % l.length)

/-- The `attract` closure of `Bot::update`: accumulate
`target_delta / (1 + distance_squared)` into the weighted sum. -/
def attract (weightedSum targetDelta : Vec2) (distanceSquared : ℚ) : Vec2 :=
  vadd weightedSum (vdiv targetDelta (1 + distanceSquared))

/-- The `repel` closure of `Bot::update`: `attract` of the negated delta. -/
def repel (weightedSum targetDelta : Vec2) (distanceSquared : ℚ) : Vec2 :=
  attract weightedSum (vneg targetDelta) distanceSquared

/-- The `spring` closure of `Bot::update`: sets (does not accumulate) the
weighted sum to `target_delta * displacement / (displacement^2 + 1)`. -/
def spring (env : Env) (targetDelta : Vec2) (desiredDistance : ℚ) : Vec2 :=
  let distance := env.vecLength targetDelta
  let displacement := distance - desiredDistance
  vdiv (vscale targetDelta displacement) (displacement ^ 2 + 1)

/-- `Bot::is_land_or_border`. -/
def isLandOrBorder (env : Env) (pos : Vec2) (worldRadius : ℚ) : Bool :=
  if lengthSq pos > worldRadius ^ 2 then true
  else decide ((env.sample pos).getD env.altMin ≥ env.sandLevel)

/-- The terrain-avoidance loop of `Bot::update`: ten equally spaced samples
around the vessel at a radius of its length (`i * 2π/10` radians is
`36 * i` degrees), each land-or-border sample repelling with the squared
length as the squared distance. -/
def terrainMovement (env : Env) (boat : Contact) (data : EntityData)
    (worldRadius : ℚ) : Vec2 :=
  (List.range 10).foldl
    (fun movement i =>
      let angle := wrapAngle (36 * i)
      let deltaPosition := vscale (env.toVec angle) data.length
      if isLandOrBorder env (vadd boat.transform.position deltaPosition) worldRadius
      then repel movement deltaPosition (data.length ^ 2)
      else movement)
    (0, 0)

/-- One step of the nearest-hostile tracking: replace the current best
exactly when the squared distance is strictly smaller. -/
def trackClosest (closestEnemy : Option (Contact × ℚ)) (contact : Contact)
    (distanceSquared : ℚ) : Option (Contact × ℚ) :=
  match closestEnemy with
  | some existing =>
      if distanceSquared < existing.2 then some (contact, distanceSquared)
      else closestEnemy
  | none => some (contact, distanceSquared)

/-- One iteration of the contact-scan loop of `Bot::update` over the state
(movement vector, nearest hostile): attraction for collectibles, the
generic repulsion rule, the friendly-boat spring, obstacle repulsion and
nearest-hostile candidate tracking.  `data` is the static data of the
bot's own vessel. -/
def scanStep (env : Env) (playerId : Nat) (boat : Contact) (data : EntityData)
    (st : Vec2 × Option (Contact × ℚ)) (contact : Contact) :
    Vec2 × Option (Contact × ℚ) :=
  if contact.id = boat.id then st
  else
    match contact.entityType with
    | none => st
    | some t =>
      let contactData := env.dataOf t
      let deltaPosition := vsub contact.transform.position boat.transform.position
      let distanceSquared := lengthSq deltaPosition
      let friendly : Bool := decide (contact.playerId = some playerId)
      let movement :=
        if contactData.kind = EntityKind.Collectible then
          attract st.1 deltaPosition distanceSquared
        else if (!friendly || decide (contactData.kind = EntityKind.Boat))
            && !(!friendly && decide (contactData.kind = EntityKind.Boat)
                 && decide (data.subKind = EntitySubKind.Ram)) then
          repel st.1 deltaPosition distanceSquared
        else st.1
      if friendly then
        (if contactData.kind = EntityKind.Boat then
           spring env deltaPosition (data.radius + contactData.radius)
         else movement,
         st.2)
      else
        match contactData.kind with
        | EntityKind.Boat =>
            (movement, trackClosest st.2 contact distanceSquared)
        | EntityKind.Aircraft =>
            (movement, trackClosest st.2 contact distanceSquared)
        | EntityKind.Weapon =>
            if contactData.subKind = EntitySubKind.Missile then
              (movement, trackClosest st.2 contact distanceSquared)
            else (movement, st.2)
        | EntityKind.Obstacle =>
            (repel movement deltaPosition distanceSquared, st.2)
        | _ => (movement, st.2)

/-- The targeting relevance `match` of `Bot::update`: whether an armament
(by its launched entity's static data) is relevant against the nearest
hostile. -/
def relevantArmament (enemyData : EntityData) (enemyAltitude : ℚ)
    (armamentEntityData : EntityData) : Bool :=
  match enemyData.kind with
  | EntityKind.Aircraft =>
      if isAirborne enemyAltitude then
        decide (armamentEntityData.subKind = EntitySubKind.Sam)
      else false
  | EntityKind.Weapon =>
      if isAirborne enemyAltitude then
        decide (armamentEntityData.subKind = EntitySubKind.Sam)
      else false
  | EntityKind.Boat =>
      if isSubmerged enemyAltitude then
        decide (armamentEntityData.subKind ∈
          [EntitySubKind.Torpedo, EntitySubKind.Plane, EntitySubKind.Heli,
           EntitySubKind.DepthCharge])
      else
        decide (armamentEntityData.subKind ∈
          [EntitySubKind.Torpedo, EntitySubKind.Plane, EntitySubKind.Heli,
           EntitySubKind.DepthCharge, EntitySubKind.Rocket,
           EntitySubKind.Missile, EntitySubKind.Shell])
  | _ => false

/-- The turret gate of the targeting loop: if the armament is mounted on a
turret, the turret's azimuth-arc test applied to the turret's current
orientation must pass. -/
def azimuthOk (boat : Contact) (data : EntityData) (armament : Armament) : Bool :=
  match armament.turret with
  | some turretIndex =>
      (data.turrets.getD turretIndex default).withinAzimuth
        (boat.turrets.getD turretIndex 0)
  | none => true

/-- A firing solution: armament index, aim position, angular deviation. -/
abbrev Sol := Nat × Vec2 × ℚ

/-- The angular deviation computed for armament slot `i`: bearing from the
armament's world transform to the hostile minus the transform's facing,
wrapped and taken absolutely; forced to zero for vertically launched or
aircraft armaments. -/
def armamentDeviation (env : Env) (boat : Contact) (data : EntityData)
    (enemy : Contact) (i : Nat) (armament : Armament) : ℚ :=
  let armamentEntityData := env.dataOf armament.entityType
  let transform := env.addTransform boat.transform
    (env.armamentTransform data boat.turrets i)
  let angle := env.angleOfVec (vsub enemy.transform.position transform.position)
  let angleDiff := angleAbs (angleSub angle transform.direction)
  if armament.vertical || decide (armamentEntityData.kind = EntityKind.Aircraft)
  then 0 else angleDiff

/-- The firing solution formed for armament slot `i`. -/
def solutionOf (env : Env) (boat : Contact) (data : EntityData)
    (enemy : Contact) (ia : Nat × Armament) : Sol :=
  (ia.1, enemy.transform.position, armamentDeviation env boat data enemy ia.1 ia.2)

/-- The final comparison of the targeting loop: replace the best solution
exactly when the new deviation is strictly below the current best (or below
`Angle::MAX` when there is none). -/
def consider (best : Option Sol) (firingSolution : Sol) : Option Sol :=
  if firingSolution.2.2 < ((best.map fun s => s.2.2).getD angleMAX) then
    some firingSolution
  else best

/-- One iteration of the targeting loop of `Bot::update` for armament slot
`ia`: skip while reloading, skip non-Weapon/Aircraft armaments, skip
irrelevant ones, skip out-of-azimuth turret mounts, otherwise `consider`
the solution. -/
def armamentStep (env : Env) (boat : Contact) (data enemyData : EntityData)
    (enemy : Contact) (reloads : List Nat) (best : Option Sol)
    (ia : Nat × Armament) : Option Sol :=
  if 0 < reloads.getD ia.1 0 then best
  else if (env.dataOf ia.2.entityType).kind = EntityKind.Weapon
      ∨ (env.dataOf ia.2.entityType).kind = EntityKind.Aircraft then
    if relevantArmament enemyData enemy.altitude (env.dataOf ia.2.entityType) then
      if azimuthOk boat data ia.2 then
        consider best (solutionOf env boat data enemy ia)
      else best
    else best
  else best

/-- The targeting loop of `Bot::update`: fold `armamentStep` over the
enumerated armament list of the bot's vessel. -/
def bestFiringSolution (env : Env) (boat : Contact) (data : EntityData)
    (enemy : Contact) : Option Sol :=
  data.armaments.enum.foldl
    (armamentStep env boat data (env.dataOf (enemy.entityType.getD 0)) enemy
      boat.reloads)
    none

/-- The `Control` command built by the alive branch of `Bot::update`. -/
def controlOf (env : Env) (bot : Bot) (data : EntityData) (healthPercent : ℚ)
    (movement : Vec2) (best : Option Sol) : ControlCmd :=
  { guidance := some
      { directionTarget := env.angleOfVec movement
        velocityTarget := data.speed * (4 / 5) }
    angularVelocityTarget := none
    altitudeTarget :=
      if data.subKind = EntitySubKind.Submarine then
        some (if bot.aggression < healthPercent then 0 else env.altMin)
      else none
    aimTarget := best.map fun solution => vadd solution.2.1 bot.aimBias
    active := decide ((1 : ℚ) / 2 ≤ healthPercent) }

/-- The optional second command of the alive branch: on a successful
aggression draw, `Fire` when the best firing solution deviates by less than
60 degrees, else (only when there is no firing solution at all) a random
eligible `Upgrade` when below the level ambition. -/
def extraOf (env : Env) (bot : Bot) (u : Update) (boatType : Nat)
    (data : EntityData) (r : Rand) (best : Option Sol) : List Command :=
  if r.aggressionRoll then
    match best with
    | some firingSolution =>
        if firingSolution.2.2 < 60 then
          [Command.Fire firingSolution.1 firingSolution.2.1]
        else []
    | none =>
        if data.level < bot.levelAmbition then
          match chooseFrom (env.upgradeOptions boatType u.score true) r.upgradeIdx with
          | some entityType => [Command.Upgrade entityType]
          | none => []
        else []
  else []

/-- The contact scan of the alive branch: fold `scanStep` over the
remaining contacts, starting from the terrain-avoidance movement vector
and no nearest hostile. -/
def scanResult (env : Env) (u : Update) (boat : Contact) (data : EntityData)
    (rest : List Contact) : Vec2 × Option (Contact × ℚ) :=
  rest.foldl (scanStep env u.playerId boat data)
    (terrainMovement env boat data u.worldRadius, none)

/-- The best firing solution of the alive branch: run the targeting loop
against the nearest hostile found by the contact scan, if any. -/
def bestOf (env : Env) (u : Update) (boat : Contact) (data : EntityData)
    (rest : List Contact) : Option Sol :=
  match (scanResult env u boat data rest).2 with
  | some enemyEntry => bestFiringSolution env boat data enemyEntry.1
  | none => none

/-- The alive branch of `Bot::update` (own vessel present as the first
contact): terrain avoidance, contact scan, targeting and command
emission. -/
def aliveBranch (env : Env) (bot : Bot) (u : Update) (r : Rand)
    (boat : Contact) (rest : List Contact) : List Command × Bool × Bot :=
  let boatType := boat.entityType.getD 0
  let data := env.dataOf boatType
  let healthPercent := 1 - boat.damageSecs / data.maxHealthSecs
  (Command.Control (controlOf env bot data healthPercent
       (scanResult env u boat data rest).1 (bestOf env u boat data rest)) ::
     extraOf env bot u boatType data r (bestOf env u boat data rest),
   false,
   { bot with spawnedAtLeastOnce := true })

/-- The not-alive branches of `Bot::update`: rage-quit with the drawn 1/3
chance when previously spawned, else spawn at a random spawn option. -/
def deadBranch (env : Env) (bot : Bot) (r : Rand) : List Command × Bool × Bot :=
  if bot.spawnedAtLeastOnce && r.rageRoll then ([], true, bot)
  else
    match chooseFrom (env.spawnOptions true) r.spawnIdx with
    | some entityType => ([Command.Spawn entityType], false, bot)
    | none => ([], false, bot)

/-- Whether a contact is the controller's own live vessel: the filter
`c.is_boat() && c.player_id() == Some(player_id)` applied by `update` to
the first contact of the snapshot. -/
def isSelfBoat (env : Env) (playerId : Nat) (c : Contact) : Bool :=
  (match c.entityType with
   | some t => decide ((env.dataOf t).kind = EntityKind.Boat)
   | none => false)
  && decide (c.playerId = some playerId)

/-- `Bot::update`: the commands to execute, the quit flag and the updated
bot state.  The alive branch is taken exactly when the first contact of the
snapshot passes the self-boat filter. -/
def update (env : Env) (bot : Bot) (u : Update) (r : Rand) :
    List Command × Bool × Bot :=
  match u.contacts with
  | [] => deadBranch env bot r
  | boat :: rest =>
      if isSelfBoat env u.playerId boat then aliveBranch env bot u r boat rest
      else deadBranch env bot r

/-! ### Concrete instances

A small plausible instantiation of the external world, used by the
concrete counterexamples and witnesses below.  Entity type codes:
`1` a boat with one ready vertically launched torpedo armament, `2` a
plain hostile boat, `3` the torpedo weapon launched by armaments, `4` a
boat of sub-kind `Ram`, `5` a boat with one turreted torpedo armament
(the turret arc accepts exactly the angle `0`), `6` a boat with two
vertically launched torpedo armaments, `9` a boat with one vertically
launched and one turreted torpedo armament; everything else an inert
decoy. -/

def dataDecoy : EntityData :=
  ⟨EntityKind.Decoy, EntitySubKind.Other, 1, 1, 1, 1, 0, [], []⟩

def dataSelfVertical : EntityData :=
  ⟨EntityKind.Boat, EntitySubKind.Other, 10, 10, 5, 25, 1,
   [⟨3, none, true⟩], []⟩

def dataEnemyBoat : EntityData :=
  ⟨EntityKind.Boat, EntitySubKind.Other, 10, 10, 5, 25, 2, [], []⟩

def dataTorpedo : EntityData :=
  ⟨EntityKind.Weapon, EntitySubKind.Torpedo, 1, 1, 1, 1, 0, [], []⟩

def dataRamBoat : EntityData :=
  ⟨EntityKind.Boat, EntitySubKind.Ram, 10, 10, 5, 25, 1, [], []⟩

def dataTurretBoat : EntityData :=
  ⟨EntityKind.Boat, EntitySubKind.Other, 10, 10, 5, 25, 1,
   [⟨3, some 0, false⟩], [⟨fun a => decide (a = 0)⟩]⟩

def dataTwoVertical : EntityData :=
  ⟨EntityKind.Boat, EntitySubKind.Other, 10, 10, 5, 25, 1,
   [⟨3, none, true⟩, ⟨3, none, true⟩], []⟩

def dataMixed : EntityData :=
  ⟨EntityKind.Boat, EntitySubKind.Other, 10, 10, 5, 25, 1,
   [⟨3, none, true⟩, ⟨3, some 0, false⟩], [⟨fun a => decide (a = 0)⟩]⟩

/-- The concrete environment.  `angleOfVec` and `toVec` agree with the
real atan2 and unit-vector functions at the points the runs below use. -/
def envA : Env :=
  { dataOf := fun t =>
      match t with
      | 1 => dataSelfVertical
      | 2 => dataEnemyBoat
      | 3 => dataTorpedo
      | 4 => dataRamBoat
      | 5 => dataTurretBoat
      | 6 => dataTwoVertical
      | 9 => dataMixed
      | _ => dataDecoy
    upgradeOptions := fun _ _ _ => [7]
    spawnOptions := fun _ => [1]
    sample := fun _ => none
    sandLevel := 0
    altMin := -10
    angleOfVec := fun v =>
      if v = ((0 : ℚ), (100 : ℚ)) then 90
      else if v = ((-100 : ℚ), (0 : ℚ)) then 180
      else 0
    toVec := fun a =>
      if a = 90 then (0, 1)
      else if a = -180 then (-1, 0)
      else if a = -90 then (0, -1)
      else (1, 0)
    addTransform := fun t1 t2 =>
      ⟨vadd t1.position t2.position, wrapAngle (t1.direction + t2.direction)⟩
    armamentTransform := fun _ _ _ => ⟨(0, 0), 0⟩
    vecLength := fun _ => 0 }

def selfA : Contact := ⟨1, some 1, some 1, ⟨(0, 0), 0⟩, 0, 0, [0], []⟩

def selfB : Contact := ⟨1, some 1, some 5, ⟨(0, 0), 0⟩, 0, 0, [0], [0]⟩

def selfC : Contact := ⟨1, some 1, some 6, ⟨(0, 0), 0⟩, 0, 0, [0, 5], []⟩

def selfD : Contact := ⟨1, some 1, some 9, ⟨(0, 0), 0⟩, 0, 0, [0, 0], [90]⟩

def enemyA : Contact := ⟨2, some 2, some 2, ⟨(100, 0), 0⟩, 0, 0, [], []⟩

def enemyB : Contact := ⟨2, some 2, some 2, ⟨(0, 100), 0⟩, 0, 0, [], []⟩

def enemyC : Contact := ⟨2, some 2, some 2, ⟨(-100, 0), 0⟩, 0, 0, [], []⟩

def contactRam : Contact := ⟨3, some 2, some 4, ⟨(3, 4), 0⟩, 0, 0, [], []⟩

def botA : Bot := ⟨0, (10, 0), 5, false⟩

def uA : Update := ⟨1, [selfA, enemyA], 1000000, 0⟩

def uB : Update := ⟨1, [selfB, enemyB], 1000000, 0⟩

def rA : Rand := ⟨true, false, 0, 0⟩

/-! ### Machinery: a factored view of the targeting loop

`armamentStep` is the literal translation of the loop body with its early
`continue`s; for reasoning it is convenient to factor it into a
qualification test and the `consider` comparison, and to rewrite the fold
as a fold of `consider` over the list of qualifying solutions. -/

/-- All the skip conditions of the targeting loop body combined: reloaded,
of kind Weapon or Aircraft, relevant against the hostile and inside the
turret azimuth arc (when turret mounted). -/
def qualifies (env : Env) (boat : Contact) (data enemyData : EntityData)
    (enemy : Contact) (reloads : List Nat) (ia : Nat × Armament) : Bool :=
  decide (¬ 0 < reloads.getD ia.1 0)
  && (decide ((env.dataOf ia.2.entityType).kind = EntityKind.Weapon)
      || decide ((env.dataOf ia.2.entityType).kind = EntityKind.Aircraft))
  && relevantArmament enemyData enemy.altitude (env.dataOf ia.2.entityType)
  && azimuthOk boat data ia.2

/-- The qualifying firing solutions of the targeting loop, in index
order. -/
def candidatesOf (env : Env) (boat : Contact) (data : EntityData)
    (enemy : Contact) : List Sol :=
  ((data.armaments.enum).filter
      (qualifies env boat data (env.dataOf (enemy.entityType.getD 0)) enemy
        boat.reloads)).map
    (solutionOf env boat data enemy)

/-- Folding the `consider` comparison from an empty best. -/
def selectBest (l : List Sol) : Option Sol := l.foldl consider none

/-- The minimum deviation of a list of solutions, following the wording of
the spec ("the candidate with the minimum angular deviation"). -/
def minDev : List Sol → Option ℚ
  | [] => none
  | s :: rest =>
      some (match minDev rest with
            | none => s.2.2
            | some m => min s.2.2 m)

/-- The selection the spec describes: the first candidate, in scan order,
whose angular deviation equals the minimum deviation. -/
def specSelect (l : List Sol) : Option Sol :=
  match minDev l with
  | none => none
  | some m => l.find? (fun s => decide (s.2.2 = m))

theorem armamentStep_eq (env : Env) (boat : Contact) (data enemyData : EntityData)
    (enemy : Contact) (reloads : List Nat) (best : Option Sol) (ia : Nat × Armament) :
    armamentStep env boat data enemyData enemy reloads best ia =
      if qualifies env boat data enemyData enemy reloads ia then
        consider best (solutionOf env boat data enemy ia)
      else best := by
  unfold armamentStep qualifies
  cases hk : (env.dataOf ia.2.entityType).kind <;>
  by_cases h1 : reloads.getD ia.1 0 = 0 <;>
  by_cases h3 : relevantArmament enemyData enemy.altitude
      (env.dataOf ia.2.entityType) = true <;>
  by_cases h4 : azimuthOk boat data ia.2 = true <;>
  simp_all [Nat.pos_iff_ne_zero]

theorem foldl_armamentStep (env : Env) (boat : Contact)
    (data enemyData : EntityData) (enemy : Contact) (reloads : List Nat) :
    ∀ (l : List (Nat × Armament)) (acc : Option Sol),
      l.foldl (armamentStep env boat data enemyData enemy reloads) acc =
        ((l.filter (qualifies env boat data enemyData enemy reloads)).map
            (solutionOf env boat data enemy)).foldl consider acc := by
  intro l
  induction l with
  | nil => intro acc; rfl
  | cons ia rest ih =>
      intro acc
      by_cases h : qualifies env boat data enemyData enemy reloads ia
      · simp only [List.foldl_cons, armamentStep_eq, h, if_pos, List.filter_cons,
          List.map_cons]
        rw [ih]
      · simp only [List.foldl_cons, armamentStep_eq, h, if_neg, List.filter_cons]
        simp only [h, Bool.false_eq_true, if_false]
        rw [ih]

theorem bestFiringSolution_eq_selectBest (env : Env) (boat : Contact)
    (data : EntityData) (enemy : Contact) :
    bestFiringSolution env boat data enemy =
      selectBest (candidatesOf env boat data enemy) := by
  unfold bestFiringSolution candidatesOf selectBest
  exact foldl_armamentStep env boat data _ enemy boat.reloads data.armaments.enum none

theorem consider_none (fs : Sol) :
    consider none fs = if fs.2.2 < angleMAX then some fs else none := rfl

theorem consider_some (s fs : Sol) :
    consider (some s) fs = if fs.2.2 < s.2.2 then some fs else some s := rfl

/-- Anything the `consider` fold returns was a candidate, unless it was the
starting accumulator. -/
theorem foldl_consider_mem :
    ∀ (l : List Sol) (acc : Option Sol) (s : Sol),
      l.foldl consider acc = some s → s ∈ l ∨ acc = some s := by
  intro l
  induction l with
  | nil => intro acc s h; exact Or.inr h
  | cons fs rest ih =>
      intro acc s h
      rcases ih (consider acc fs) s h with hmem | hacc
      · exact Or.inl (List.mem_cons_of_mem _ hmem)
      · cases acc with
        | none =>
            rw [consider_none] at hacc
            split at hacc
            · exact Or.inl (List.mem_cons.mpr (Or.inl (Option.some.inj hacc).symm))
            · exact absurd hacc (by simp)
        | some t =>
            rw [consider_some] at hacc
            split at hacc
            · exact Or.inl (List.mem_cons.mpr (Or.inl (Option.some.inj hacc).symm))
            · exact Or.inr hacc

/-- The strict comparison against the `Angle::MAX` sentinel keeps every
returned best solution strictly below `Angle::MAX`. -/
theorem foldl_consider_dev_lt :
    ∀ (l : List Sol) (acc : Option Sol) (s : Sol),
      (∀ t, acc = some t → t.2.2 < angleMAX) →
      l.foldl consider acc = some s → s.2.2 < angleMAX := by
  intro l
  induction l with
  | nil => intro acc s hacc h; exact hacc s h
  | cons fs rest ih =>
      intro acc s hacc h
      refine ih (consider acc fs) s ?_ h
      intro t ht
      cases acc with
      | none =>
          rw [consider_none] at ht
          split at ht
          · rename_i hlt
            exact (Option.some.inj ht) ▸ hlt
          · exact absurd ht (by simp)
      | some u =>
          have hu : u.2.2 < angleMAX := hacc u rfl
          rw [consider_some] at ht
          split at ht
          · rename_i hlt
            exact (Option.some.inj ht) ▸ lt_trans hlt hu
          · exact (Option.some.inj ht) ▸ hu

theorem minDev_eq_none {l : List Sol} : minDev l = none ↔ l = [] := by
  cases l <;> simp [minDev]

theorem minDev_cons_eq (s : Sol) (rest : List Sol) :
    minDev (s :: rest) = some (match minDev rest with
                               | none => s.2.2
                               | some m => min s.2.2 m) := rfl

theorem specSelect_eq_find (l : List Sol) (m : ℚ) (h : minDev l = some m) :
    specSelect l = l.find? (fun s => decide (s.2.2 = m)) := by
  unfold specSelect
  rw [h]

theorem minDev_le :
    ∀ (l : List Sol) (m : ℚ), minDev l = some m → ∀ fs ∈ l, m ≤ fs.2.2 := by
  intro l
  induction l with
  | nil => intro m _ fs hfs; exact absurd hfs (by simp)
  | cons s rest ih =>
      intro m hm fs hfs
      cases hr : minDev rest with
      | none =>
          have hrest : rest = [] := minDev_eq_none.mp hr
          subst hrest
          simp only [minDev, hr] at hm
          rcases List.mem_cons.mp hfs with rfl | hh
          · exact le_of_eq (Option.some.inj hm).symm
          · exact absurd hh (by simp)
      | some mr =>
          simp only [minDev, hr] at hm
          have hm' : m = min s.2.2 mr := (Option.some.inj hm).symm
          rcases List.mem_cons.mp hfs with rfl | hh
          · rw [hm']; exact min_le_left _ _
          · rw [hm']
            exact le_trans (min_le_right _ _) (ih mr hr fs hh)

theorem specSelect_cons_lt (s fs : Sol) (rest : List Sol)
    (h : fs.2.2 < s.2.2) :
    specSelect (s :: fs :: rest) = specSelect (fs :: rest) := by
  obtain ⟨m2, hm2, hle⟩ :
      ∃ m2, minDev (fs :: rest) = some m2 ∧ m2 ≤ fs.2.2 := by
    cases hr : minDev rest with
    | none => exact ⟨fs.2.2, by rw [minDev_cons_eq, hr], le_refl _⟩
    | some mr => exact ⟨min fs.2.2 mr, by rw [minDev_cons_eq, hr], min_le_left _ _⟩
  have hm2lt : m2 < s.2.2 := lt_of_le_of_lt hle h
  have hall : minDev (s :: fs :: rest) = some m2 := by
    rw [minDev_cons_eq, hm2]
    show some (min s.2.2 m2) = some m2
    rw [min_eq_right (le_of_lt hm2lt)]
  rw [specSelect_eq_find _ _ hall, specSelect_eq_find _ _ hm2,
    List.find?_cons_of_neg _ (by simp [ne_of_gt hm2lt])]

theorem specSelect_cons_ge (s fs : Sol) (rest : List Sol)
    (h : ¬ fs.2.2 < s.2.2) :
    specSelect (s :: fs :: rest) = specSelect (s :: rest) := by
  have hs : s.2.2 ≤ fs.2.2 := le_of_not_lt h
  cases hr : minDev rest with
  | none =>
      have hrest : rest = [] := minDev_eq_none.mp hr
      subst hrest
      have h1 : minDev (s :: fs :: ([] : List Sol)) = some s.2.2 := by
        rw [minDev_cons_eq, minDev_cons_eq]
        show some (min s.2.2 fs.2.2) = some s.2.2
        rw [min_eq_left hs]
      have h2 : minDev [s] = some s.2.2 := rfl
      rw [specSelect_eq_find _ _ h1, specSelect_eq_find _ _ h2,
        List.find?_cons_of_pos _ (by simp), List.find?_cons_of_pos _ (by simp)]
  | some mr =>
      have h1 : minDev (s :: fs :: rest) = some (min s.2.2 mr) := by
        rw [minDev_cons_eq, minDev_cons_eq, hr]
        show some (min s.2.2 (min fs.2.2 mr)) = some (min s.2.2 mr)
        rw [← min_assoc, min_eq_left hs]
      have h2 : minDev (s :: rest) = some (min s.2.2 mr) := by
        rw [minDev_cons_eq, hr]
      rw [specSelect_eq_find _ _ h1, specSelect_eq_find _ _ h2]
      by_cases hsm : s.2.2 = min s.2.2 mr
      · rw [List.find?_cons_of_pos _ (by simp [← hsm]),
          List.find?_cons_of_pos _ (by simp [← hsm])]
      · have hmrlt : mr < s.2.2 := by
          by_contra hcon
          exact hsm (min_eq_left (le_of_not_lt hcon)).symm
        have hminr : min s.2.2 mr = mr := min_eq_right (le_of_lt hmrlt)
        rw [hminr] at hsm ⊢
        have hsmr : ¬ (decide (s.2.2 = mr)) = true := by simp [hsm]
        have hfsr : ¬ (decide (fs.2.2 = mr)) = true := by
          simp [ne_of_gt (lt_of_lt_of_le hmrlt hs)]
        rw [@List.find?_cons_of_neg _ (fun x => decide (x.2.2 = mr)) s
            (fs :: rest) hsmr,
          @List.find?_cons_of_neg _ (fun x => decide (x.2.2 = mr)) fs rest hfsr,
          @List.find?_cons_of_neg _ (fun x => decide (x.2.2 = mr)) s rest hsmr]

/-- Folding `consider` from an already selected solution realises the
first-minimum selection over the accumulator followed by the list. -/
theorem foldl_consider_some :
    ∀ (l : List Sol) (s : Sol),
      l.foldl consider (some s) = specSelect (s :: l) := by
  intro l
  induction l with
  | nil =>
      intro s
      rw [List.foldl_nil, specSelect_eq_find [s] s.2.2 rfl,
        List.find?_cons_of_pos _ (by simp)]
  | cons fs rest ih =>
      intro s
      rw [List.foldl_cons, consider_some]
      by_cases h : fs.2.2 < s.2.2
      · rw [if_pos h, ih fs, specSelect_cons_lt s fs rest h]
      · rw [if_neg h, ih s, specSelect_cons_ge s fs rest h]

theorem specSelect_cons_of_lt (fs : Sol) (rest : List Sol) (mr : ℚ)
    (hmr : minDev rest = some mr) (h1 : mr < fs.2.2) :
    specSelect (fs :: rest) = specSelect rest := by
  have hall : minDev (fs :: rest) = some mr := by
    rw [minDev_cons_eq, hmr]
    show some (min fs.2.2 mr) = some mr
    rw [min_eq_right (le_of_lt h1)]
  rw [specSelect_eq_find _ _ hall, specSelect_eq_find _ _ hmr,
    List.find?_cons_of_neg _ (by simp [ne_of_gt h1])]

/-- As long as some candidate deviates by strictly less than `Angle::MAX`
(all of them being at most `Angle::MAX`), the fold of the targeting loop
computes exactly the first-minimum selection of the spec. -/
theorem selectBest_eq_specSelect :
    ∀ (l : List Sol),
      (∀ fs ∈ l, fs.2.2 ≤ angleMAX) →
      (∃ fs ∈ l, fs.2.2 < angleMAX) →
      selectBest l = specSelect l := by
  intro l
  induction l with
  | nil => intro _ hex; exact absurd hex (by simp)
  | cons fs rest ih =>
      intro hb hex
      unfold selectBest
      rw [List.foldl_cons, consider_none]
      by_cases h : fs.2.2 < angleMAX
      · rw [if_pos h]
        exact foldl_consider_some rest fs
      · rw [if_neg h]
        have hfsMAX : fs.2.2 = angleMAX :=
          le_antisymm (hb fs (by simp)) (not_lt.mp h)
        obtain ⟨g, hg, hglt⟩ := hex
        have hgrest : g ∈ rest := by
          rcases List.mem_cons.mp hg with rfl | hh
          · exact absurd hglt (by rw [hfsMAX]; exact lt_irrefl _)
          · exact hh
        cases hr : minDev rest with
        | none =>
            exact absurd hgrest (by simp [minDev_eq_none.mp hr])
        | some mr =>
            have hmrlt : mr < fs.2.2 := by
              rw [hfsMAX]
              exact lt_of_le_of_lt (minDev_le rest mr hr g hgrest) hglt
            have hb' : ∀ t ∈ rest, t.2.2 ≤ angleMAX :=
              fun t ht => hb t (List.mem_cons_of_mem _ ht)
            rw [show rest.foldl consider none = selectBest rest from rfl,
              ih hb' ⟨g, hgrest, hglt⟩,
              specSelect_cons_of_lt fs rest mr hr hmrlt]

/-- The wrapped angle lies in `[-180, 180)`. -/
theorem wrapAngle_bounds (x : ℚ) : -180 ≤ wrapAngle x ∧ wrapAngle x < 180 := by
  unfold wrapAngle
  have h360 : (0 : ℚ) < 360 := by norm_num
  have h1 : ((⌊(x + 180) / 360⌋ : ℤ) : ℚ) ≤ (x + 180) / 360 := Int.floor_le _
  have h2 : (x + 180) / 360 < (⌊(x + 180) / 360⌋ : ℚ) + 1 := Int.lt_floor_add_one _
  have h1' : ((⌊(x + 180) / 360⌋ : ℤ) : ℚ) * 360 ≤ x + 180 := by
    rw [← le_div_iff₀ h360]; exact h1
  have h2' : x + 180 < (((⌊(x + 180) / 360⌋ : ℤ) : ℚ) + 1) * 360 := by
    rw [← div_lt_iff₀ h360]; exact h2
  constructor <;> linarith

/-- Every computed angular deviation is at most `Angle::MAX`. -/
theorem armamentDeviation_le_MAX (env : Env) (boat : Contact)
    (data : EntityData) (enemy : Contact) (i : Nat) (armament : Armament) :
    armamentDeviation env boat data enemy i armament ≤ angleMAX := by
  simp only [armamentDeviation]
  split
  · norm_num [angleMAX]
  · unfold angleAbs angleSub angleMAX
    obtain ⟨hlo, hhi⟩ := wrapAngle_bounds
      (env.angleOfVec (vsub enemy.transform.position
        (env.addTransform boat.transform
          (env.armamentTransform data boat.turrets i)).position) -
       (env.addTransform boat.transform
          (env.armamentTransform data boat.turrets i)).direction)
    rw [abs_le]
    exact ⟨by linarith, le_of_lt hhi⟩

theorem candidates_dev_le (env : Env) (boat : Contact) (data : EntityData)
    (enemy : Contact) :
    ∀ fs ∈ candidatesOf env boat data enemy, fs.2.2 ≤ angleMAX := by
  intro fs hfs
  unfold candidatesOf at hfs
  obtain ⟨ia, _, rfl⟩ := List.mem_map.mp hfs
  exact armamentDeviation_le_MAX env boat data enemy ia.1 ia.2

/-- Any selected firing solution arises from a qualifying armament slot. -/
theorem selected_qualifies (env : Env) (boat : Contact) (data : EntityData)
    (enemy : Contact) (s : Sol)
    (h : bestFiringSolution env boat data enemy = some s) :
    ∃ ia ∈ data.armaments.enum,
      qualifies env boat data (env.dataOf (enemy.entityType.getD 0)) enemy
        boat.reloads ia = true ∧
      s = solutionOf env boat data enemy ia := by
  rw [bestFiringSolution_eq_selectBest] at h
  rcases foldl_consider_mem _ none s h with hmem | habs
  · unfold candidatesOf at hmem
    obtain ⟨ia, hia, rfl⟩ := List.mem_map.mp hmem
    exact ⟨ia, (List.mem_filter.mp hia).1, (List.mem_filter.mp hia).2, rfl⟩
  · exact absurd habs (by simp)

theorem update_nil (env : Env) (bot : Bot) (u : Update) (r : Rand)
    (h : u.contacts = []) : update env bot u r = deadBranch env bot r := by
  unfold update
  rw [h]

theorem update_cons (env : Env) (bot : Bot) (u : Update) (r : Rand)
    (boat : Contact) (rest : List Contact) (h : u.contacts = boat :: rest) :
    update env bot u r =
      if isSelfBoat env u.playerId boat then aliveBranch env bot u r boat rest
      else deadBranch env bot r := by
  unfold update
  rw [h]

/-- The dead branch emits either nothing or a single `Spawn`. -/
theorem deadBranch_commands (env : Env) (bot : Bot) (r : Rand) :
    (deadBranch env bot r).1 = [] ∨
    ∃ t, (deadBranch env bot r).1 = [Command.Spawn t] := by
  unfold deadBranch
  split
  · exact Or.inl rfl
  · split
    · exact Or.inr ⟨_, rfl⟩
    · exact Or.inl rfl

theorem control_not_mem_dead (env : Env) (bot : Bot) (r : Rand) (c : ControlCmd) :
    Command.Control c ∉ (deadBranch env bot r).1 := by
  rcases deadBranch_commands env bot r with hh | ⟨t, hh⟩ <;> rw [hh] <;> simp

theorem fire_not_mem_dead (env : Env) (bot : Bot) (r : Rand) (i : Nat) (p : Vec2) :
    Command.Fire i p ∉ (deadBranch env bot r).1 := by
  rcases deadBranch_commands env bot r with hh | ⟨t, hh⟩ <;> rw [hh] <;> simp

/-- A `Fire` command can only appear in the optional second command, and
only as the best firing solution with its index and its aim position. -/
theorem fire_mem_extraOf (env : Env) (bot : Bot) (u : Update) (boatType : Nat)
    (data : EntityData) (r : Rand) (best : Option Sol) (i : Nat) (p : Vec2)
    (h : Command.Fire i p ∈ extraOf env bot u boatType data r best) :
    ∃ fs, best = some fs ∧ fs.1 = i ∧ fs.2.1 = p := by
  unfold extraOf at h
  split at h
  · split at h
    · rename_i fs
      split at h
      · rcases List.mem_singleton.mp h with hh
        injection hh with h1 h2
        exact ⟨fs, rfl, h1.symm, h2.symm⟩
      · exact absurd h (by simp)
    · split at h
      · split at h
        · rcases List.mem_singleton.mp h with hh
          exact absurd hh (by simp)
        · exact absurd h (by simp)
      · exact absurd h (by simp)
  · exact absurd h (by simp)

theorem chooseFrom_mem (l : List Nat) (k : Nat) (h : l ≠ []) :
    ∃ t ∈ l, chooseFrom l k = some t := by
  unfold chooseFrom
  rw [if_neg (by simp [h])]
  have hlen : 0 < l.length := List.length_pos.mpr h
  have hk : k % l.length < l.length := Nat.mod_lt _ hlen
  exact ⟨l.get ⟨k % l.length, hk⟩, List.get_mem _ _ _, List.get?_eq_get hk⟩

/-! ### The claims -/

/-- C9: the alive branch of `update` is entered if and only if the very
first contact of the snapshot is a boat owned by the controller's player;
a `Control` command is emitted exactly in the alive branch, so any other
first contact (even with a self-owned boat later in the sequence) makes
the controller behave as if its vessel were absent. -/
theorem c9_alive_iff_first_contact_self (env : Env) (bot : Bot) (u : Update)
    (r : Rand) :
    (∃ c, Command.Control c ∈ (update env bot u r).1) ↔
      (∃ boat rest, u.contacts = boat :: rest ∧
        isSelfBoat env u.playerId boat = true) := by
  constructor
  · rintro ⟨c, hc⟩
    rcases hu : u.contacts with _ | ⟨boat, rest⟩
    · rw [update_nil env bot u r hu] at hc
      exact absurd hc (control_not_mem_dead env bot r c)
    · by_cases hself : isSelfBoat env u.playerId boat = true
      · exact ⟨boat, rest, rfl, hself⟩
      · rw [update_cons env bot u r boat rest hu, if_neg hself] at hc
        exact absurd hc (control_not_mem_dead env bot r c)
  · rintro ⟨boat, rest, hu, hself⟩
    rw [update_cons env bot u r boat rest hu, if_pos hself]
    exact ⟨controlOf env bot (env.dataOf (boat.entityType.getD 0))
        (1 - boat.damageSecs /
          (env.dataOf (boat.entityType.getD 0)).maxHealthSecs)
        (scanResult env u boat (env.dataOf (boat.entityType.getD 0)) rest).1
        (bestOf env u boat (env.dataOf (boat.entityType.getD 0)) rest),
      by simp only [aliveBranch]; exact List.mem_cons_self _ _⟩

/-- C2 (amended): whenever a `Fire` command is emitted, its aim point is
the hostile position itself, while the `Control` command of the same call
carries that position offset by `aim_bias`; the bias is applied to the
`Control` aim target only, not to the `Fire` command. -/
theorem c2_fire_aim_unbiased (env : Env) (bot : Bot) (u : Update) (r : Rand)
    (i : Nat) (p : Vec2)
    (hfire : Command.Fire i p ∈ (update env bot u r).1) :
    ∃ c, Command.Control c ∈ (update env bot u r).1 ∧
      c.aimTarget = some (vadd p bot.aimBias) := by
  rcases hu : u.contacts with _ | ⟨boat, rest⟩
  · rw [update_nil env bot u r hu] at hfire
    exact absurd hfire (fire_not_mem_dead env bot r i p)
  · by_cases hself : isSelfBoat env u.playerId boat = true
    · rw [update_cons env bot u r boat rest hu, if_pos hself] at hfire ⊢
      simp only [aliveBranch] at hfire ⊢
      rcases List.mem_cons.mp hfire with hbad | hmem
      · exact absurd hbad (by simp)
      · obtain ⟨fs, hbest, hi, hp⟩ := fire_mem_extraOf env bot u _ _ r _ i p hmem
        refine ⟨_, List.mem_cons_self _ _, ?_⟩
        show (controlOf env bot _ _ _ (bestOf env u boat _ rest)).aimTarget = _
        rw [show (controlOf env bot (env.dataOf (boat.entityType.getD 0))
              (1 - boat.damageSecs /
               (env.dataOf (boat.entityType.getD 0)).maxHealthSecs)
              (scanResult env u boat (env.dataOf (boat.entityType.getD 0)) rest).1
              (bestOf env u boat (env.dataOf (boat.entityType.getD 0)) rest)).aimTarget
            = (bestOf env u boat (env.dataOf (boat.entityType.getD 0)) rest).map
                (fun s => vadd s.2.1 bot.aimBias) from rfl]
        rw [hbest]
        simp [hp]
    · rw [update_cons env bot u r boat rest hu, if_neg hself] at hfire
      exact absurd hfire (fire_not_mem_dead env bot r i p)

/-- C2 counterexample: a concrete call emitting a `Fire` command whose aim
point is the hostile position `(100, 0)`, which differs from the
bias-offset aim point `(110, 0)` carried by the `Control` command; the
claim that the `Fire` aim equals the hostile position offset by `aim_bias`
is false here. -/
theorem c2_counterexample :
    (update envA botA uA rA).1 =
      [Command.Control
        { guidance := some { directionTarget := 0, velocityTarget := 20 }
          angularVelocityTarget := none
          altitudeTarget := none
          aimTarget := some (110, 0)
          active := true },
       Command.Fire 0 (100, 0)] ∧
    ((100 : ℚ), (0 : ℚ)) ≠ vadd (100, 0) botA.aimBias := by
  with_unfolding_all decide

/-- C4 (amended): on a successful aggression draw, if a firing solution
exists but its deviation is not under 60 degrees, no second command is
emitted at all (in particular no `Upgrade`); the upgrade path is reached
only when no firing solution exists, in which case a below-ambition level
and a non-empty eligible upgrade list produce an `Upgrade` command. -/
theorem c4_second_command (env : Env) (bot : Bot) (u : Update) (boatType : Nat)
    (data : EntityData) (r : Rand) (best : Option Sol)
    (hroll : r.aggressionRoll = true) :
    (∀ fs, best = some fs → ¬ fs.2.2 < 60 →
      extraOf env bot u boatType data r best = []) ∧
    (best = none → data.level < bot.levelAmbition →
      env.upgradeOptions boatType u.score true ≠ [] →
      ∃ t ∈ env.upgradeOptions boatType u.score true,
        extraOf env bot u boatType data r best = [Command.Upgrade t]) := by
  constructor
  · intro fs hbest hlt
    unfold extraOf
    rw [hroll, hbest]
    simp [hlt]
  · intro hbest hlevel hne
    obtain ⟨t, htmem, hchoose⟩ :=
      chooseFrom_mem (env.upgradeOptions boatType u.score true) r.upgradeIdx hne
    refine ⟨t, htmem, ?_⟩
    unfold extraOf
    rw [hroll, hbest]
    simp [hlevel, hchoose]

/-- C4 witness: at a concrete input with the aggression roll drawn, a
90-degree firing solution suppresses the second command, and with no
firing solution an eligible upgrade is emitted. -/
theorem c4_second_command_witness :
    extraOf envA botA uB 5 (envA.dataOf 5) rA (some (0, (0, 100), 90)) = [] ∧
    ∃ t ∈ envA.upgradeOptions 5 uB.score true,
      extraOf envA botA uB 5 (envA.dataOf 5) rA none = [Command.Upgrade t] := by
  constructor
  · exact (c4_second_command envA botA uB 5 (envA.dataOf 5) rA
      (some (0, (0, 100), 90)) rfl).1 _ rfl (by norm_num)
  · exact (c4_second_command envA botA uB 5 (envA.dataOf 5) rA none rfl).2 rfl
      (by decide) (by decide)

/-- C4 counterexample: a concrete call in which the aggression draw
succeeds, a firing solution exists with deviation 90 (not under 60), the
vessel level is below the level ambition and an eligible upgrade exists,
yet the call emits only the `Control` command and no `Upgrade`; the claim
that an `Upgrade` is emitted in this situation is false. -/
theorem c4_counterexample :
    rA.aggressionRoll = true ∧
    bestFiringSolution envA selfB (envA.dataOf 5) enemyB = some (0, (0, 100), 90) ∧
    ¬ ((90 : ℚ) < 60) ∧
    (envA.dataOf 5).level < botA.levelAmbition ∧
    envA.upgradeOptions 5 uB.score true ≠ [] ∧
    (update envA botA uB rA).1 =
      [Command.Control
        { guidance := some { directionTarget := 0, velocityTarget := 20 }
          angularVelocityTarget := none
          altitudeTarget := none
          aimTarget := some (10, 100)
          active := true }] := by
  with_unfolding_all decide

/-- C2 witness: the amended theorem applied to the concrete call of the
counterexample, in which `Fire 0 (100, 0)` is emitted. -/
theorem c2_fire_aim_unbiased_witness :
    ∃ c, Command.Control c ∈ (update envA botA uA rA).1 ∧
      c.aimTarget = some (vadd (100, 0) botA.aimBias) :=
  c2_fire_aim_unbiased envA botA uA rA 0 (100, 0) (by with_unfolding_all decide)

/-- C10: a targeting candidate whose computed angular deviation equals
`Angle::MAX` is never the selected firing solution, even when it is the
only qualifying candidate, because the loop compares with strict less-than
against the `Angle::MAX` sentinel. -/
theorem c10_max_deviation_never_selected (env : Env) (boat : Contact)
    (data : EntityData) (enemy : Contact) (fs : Sol)
    (hmem : fs ∈ candidatesOf env boat data enemy)
    (hdev : fs.2.2 = angleMAX) :
    bestFiringSolution env boat data enemy ≠ some fs := by
  intro h
  rw [bestFiringSolution_eq_selectBest] at h
  have hlt := foldl_consider_dev_lt (candidatesOf env boat data enemy) none fs
    (by simp) h
  rw [hdev] at hlt
  exact lt_irrefl _ hlt

/-- C10 witness: a concrete qualifying candidate at exactly `Angle::MAX`
(the hostile exactly opposite the armament facing) is not selected. -/
theorem c10_max_deviation_never_selected_witness :
    ((0 : Nat), ((-100 : ℚ), (0 : ℚ)), (180 : ℚ)) ∈
      candidatesOf envA selfB (envA.dataOf 5) enemyC ∧
    bestFiringSolution envA selfB (envA.dataOf 5) enemyC ≠
      some (0, (-100, 0), 180) :=
  ⟨by with_unfolding_all decide,
   c10_max_deviation_never_selected envA selfB (envA.dataOf 5) enemyC
     (0, (-100, 0), 180) (by with_unfolding_all decide)
     (by with_unfolding_all decide)⟩

/-- C7: an armament slot whose reload timer is nonzero at the start of the
targeting pass is never the selected firing solution. -/
theorem c7_reloading_never_selected (env : Env) (boat : Contact)
    (data : EntityData) (enemy : Contact) (i : Nat) (s : Sol)
    (hreload : boat.reloads.getD i 0 ≠ 0)
    (hbest : bestFiringSolution env boat data enemy = some s) :
    s.1 ≠ i := by
  obtain ⟨ia, hmem, hq, rfl⟩ := selected_qualifies env boat data enemy s hbest
  intro hi
  have hia1 : ia.1 = i := hi
  unfold qualifies at hq
  simp only [Bool.and_eq_true, decide_eq_true_eq] at hq
  exact hreload (by rw [← hia1]; exact Nat.eq_zero_of_not_pos hq.1.1.1)

/-- C7 witness: with reload timers `[0, 5]`, the selected solution is the
ready slot 0 and can never be the reloading slot 1. -/
theorem c7_reloading_never_selected_witness :
    selfC.reloads.getD 1 0 ≠ 0 ∧
    bestFiringSolution envA selfC (envA.dataOf 6) enemyA = some (0, (100, 0), 0) ∧
    ((0 : Nat), ((100 : ℚ), (0 : ℚ)), (0 : ℚ)).1 ≠ 1 :=
  ⟨by decide, by with_unfolding_all decide,
   c7_reloading_never_selected envA selfC (envA.dataOf 6) enemyA 1
     (0, (100, 0), 0) (by decide) (by with_unfolding_all decide)⟩

/-- C3 (amended): the azimuth gate of the targeting loop tests the
turret's current orientation against the turret's azimuth arc — when that
test fails for the turret of the armament at slot `i`, slot `i` is never
the selected firing solution.  The hostile's bearing plays no part in
this gate. -/
theorem c3_azimuth_gate (env : Env) (boat : Contact) (data : EntityData)
    (enemy : Contact) (i turretIndex : Nat) (armament : Armament) (s : Sol)
    (hget : data.armaments.get? i = some armament)
    (hturret : armament.turret = some turretIndex)
    (haz : (data.turrets.getD turretIndex default).withinAzimuth
        (boat.turrets.getD turretIndex 0) = false)
    (hbest : bestFiringSolution env boat data enemy = some s) :
    s.1 ≠ i := by
  obtain ⟨ia, hmem, hq, rfl⟩ := selected_qualifies env boat data enemy s hbest
  intro hi
  have hia1 : ia.1 = i := hi
  have hia2 : ia.2 = armament := by
    have hgot := List.mk_mem_enum_iff_getElem?.mp
      (show (ia.1, ia.2) ∈ data.armaments.enum from hmem)
    rw [hia1, ← List.get?_eq_getElem?, hget] at hgot
    exact (Option.some.inj hgot).symm
  have hq4 : azimuthOk boat data ia.2 = true := by
    unfold qualifies at hq
    simp only [Bool.and_eq_true] at hq
    exact hq.2
  rw [hia2] at hq4
  simp only [azimuthOk, hturret, haz, Bool.false_eq_true] at hq4

/-- C3 witness: slot 1 is turret mounted with the turret turned to 90
degrees, outside its arc (which accepts only 0), so the selected solution
is slot 0, never slot 1. -/
theorem c3_azimuth_gate_witness :
    ((envA.dataOf 9).turrets.getD 0 default).withinAzimuth
      (selfD.turrets.getD 0 0) = false ∧
    bestFiringSolution envA selfD (envA.dataOf 9) enemyA = some (0, (100, 0), 0) ∧
    ((0 : Nat), ((100 : ℚ), (0 : ℚ)), (0 : ℚ)).1 ≠ 1 :=
  ⟨by with_unfolding_all decide, by with_unfolding_all decide,
   c3_azimuth_gate envA selfD (envA.dataOf 9) enemyA 1 0 ⟨3, some 0, false⟩
     (0, (100, 0), 0) (by decide) rfl (by with_unfolding_all decide)
     (by with_unfolding_all decide)⟩

/-- C3 counterexample: a concrete targeting run in which the hostile's
bearing relative to the vessel (90 degrees) lies outside the turret's
azimuth arc (which accepts only 0), the turret's current orientation (0)
lies inside it, and the turret-mounted armament is nevertheless selected;
the claim that such an armament is never selected is false. -/
theorem c3_counterexample :
    ((envA.dataOf 5).turrets.getD 0 default).withinAzimuth
      (angleSub
        (envA.angleOfVec (vsub enemyB.transform.position selfB.transform.position))
        selfB.transform.direction) = false ∧
    ((envA.dataOf 5).turrets.getD 0 default).withinAzimuth
      (selfB.turrets.getD 0 0) = true ∧
    (envA.dataOf 5).armaments.get? 0 = some ⟨3, some 0, false⟩ ∧
    bestFiringSolution envA selfB (envA.dataOf 5) enemyB =
      some (0, (0, 100), 90) := by
  with_unfolding_all decide

/-- C5 (amended): as long as at least one qualifying candidate deviates by
strictly less than `Angle::MAX`, the targeting loop selects exactly the
first candidate, in armament index order, attaining the minimum angular
deviation (a later candidate with an equal deviation never replaces the
current best, the comparison being strict less-than). -/
theorem c5_first_minimum (env : Env) (boat : Contact) (data : EntityData)
    (enemy : Contact)
    (h : ∃ fs ∈ candidatesOf env boat data enemy, fs.2.2 < angleMAX) :
    bestFiringSolution env boat data enemy =
      specSelect (candidatesOf env boat data enemy) := by
  rw [bestFiringSolution_eq_selectBest]
  exact selectBest_eq_specSelect _ (candidates_dev_le env boat data enemy) h

/-- C5 witness: the amended theorem applied at a concrete run with a
single 90-degree candidate. -/
theorem c5_first_minimum_witness :
    bestFiringSolution envA selfB (envA.dataOf 5) enemyB =
      specSelect (candidatesOf envA selfB (envA.dataOf 5) enemyB) :=
  c5_first_minimum envA selfB (envA.dataOf 5) enemyB
    ⟨(0, (0, 100), 90), by with_unfolding_all decide,
      by with_unfolding_all decide⟩

/-- C5 counterexample: with a single qualifying candidate at exactly
`Angle::MAX` (hostile exactly astern of the armament facing), the loop
selects nothing, while the claimed first-minimum selection would select
that candidate; the claim as stated is false for this input. -/
theorem c5_counterexample :
    candidatesOf envA selfB (envA.dataOf 5) enemyC = [(0, (-100, 0), 180)] ∧
    specSelect (candidatesOf envA selfB (envA.dataOf 5) enemyC) =
      some (0, (-100, 0), 180) ∧
    bestFiringSolution envA selfB (envA.dataOf 5) enemyC = none := by
  with_unfolding_all decide

/-- C6: the targeting relevance predicate holds exactly as the matrix of
the spec prescribes: airborne Aircraft/Weapon hostiles admit only Sam
armaments, non-airborne Aircraft/Weapon hostiles admit nothing, submerged
Boats admit exactly Torpedo/Plane/Heli/DepthCharge, surfaced Boats admit
exactly Torpedo/Plane/Heli/DepthCharge/Rocket/Missile/Shell, every other
hostile kind admits nothing. -/
theorem c6_relevance_matrix (enemyData : EntityData) (altitude : ℚ)
    (armamentEntityData : EntityData) :
    relevantArmament enemyData altitude armamentEntityData = true ↔
      (((enemyData.kind = EntityKind.Aircraft ∨ enemyData.kind = EntityKind.Weapon)
          ∧ isAirborne altitude = true
          ∧ armamentEntityData.subKind = EntitySubKind.Sam)
        ∨ (enemyData.kind = EntityKind.Boat ∧ isSubmerged altitude = true
          ∧ armamentEntityData.subKind ∈
              [EntitySubKind.Torpedo, EntitySubKind.Plane, EntitySubKind.Heli,
               EntitySubKind.DepthCharge])
        ∨ (enemyData.kind = EntityKind.Boat ∧ isSubmerged altitude = false
          ∧ armamentEntityData.subKind ∈
              [EntitySubKind.Torpedo, EntitySubKind.Plane, EntitySubKind.Heli,
               EntitySubKind.DepthCharge, EntitySubKind.Rocket,
               EntitySubKind.Missile, EntitySubKind.Shell])) := by
  unfold relevantArmament
  cases hk : enemyData.kind <;>
    by_cases ha : isAirborne altitude = true <;>
    by_cases hsub : isSubmerged altitude = true <;>
      simp_all

/-- C8: `repel` contributes exactly `attract` of the negated delta, namely
`-delta / (1 + d²)` added to the weighted sum; and for a fixed delta the
squared magnitude of the `attract` contribution, `|delta|² / (1 + d²)²`,
is monotonically non-increasing in the squared distance. -/
theorem c8_repel_attract_monotone (w delta : Vec2) (a b : ℚ)
    (ha : 0 ≤ a) (hab : a ≤ b) :
    repel w delta a = attract w (vneg delta) a ∧
    repel w delta a = vadd w (vdiv (vneg delta) (1 + a)) ∧
    lengthSq (vsub (attract w delta a) w) = lengthSq delta / (1 + a) ^ 2 ∧
    lengthSq (vsub (attract w delta b) w) ≤ lengthSq (vsub (attract w delta a) w) := by
  have h1a : (0 : ℚ) < 1 + a := by linarith
  have h1b : (0 : ℚ) < 1 + b := by linarith
  have hcontrib : ∀ c : ℚ, 0 < 1 + c →
      lengthSq (vsub (attract w delta c) w) = lengthSq delta / (1 + c) ^ 2 := by
    intro c hc
    unfold attract vadd vsub vdiv lengthSq
    field_simp
    ring
  refine ⟨rfl, rfl, hcontrib a h1a, ?_⟩
  rw [hcontrib a h1a, hcontrib b h1b]
  have hnum : 0 ≤ lengthSq delta := by
    unfold lengthSq
    exact add_nonneg (mul_self_nonneg _) (mul_self_nonneg _)
  have hsq : (1 + a) ^ 2 ≤ (1 + b) ^ 2 := by nlinarith
  exact div_le_div_of_nonneg_left hnum (pow_pos h1a 2) hsq

/-- C8 witness: the algebraic identities and the monotonicity at the
concrete point `w = 0`, `delta = (1, 0)`, `d² = 1` and `d² = 2`. -/
theorem c8_repel_attract_monotone_witness :
    repel (0, 0) (1, 0) 1 = attract (0, 0) (vneg (1, 0)) 1 ∧
    repel (0, 0) (1, 0) 1 = vadd (0, 0) (vdiv (vneg (1, 0)) (1 + 1)) ∧
    lengthSq (vsub (attract (0, 0) (1, 0) 1) (0, 0)) =
      lengthSq (1, 0) / (1 + 1) ^ 2 ∧
    lengthSq (vsub (attract (0, 0) (1, 0) 2) (0, 0)) ≤
      lengthSq (vsub (attract (0, 0) (1, 0) 1) (0, 0)) :=
  c8_repel_attract_monotone (0, 0) (1, 0) 1 2 (by norm_num) (by norm_num)

/-- C1 (amended): in the contact scan, the generic repulsion for a
non-friendly contact of kind Boat is keyed on the *controller's own
vessel's* sub-kind: when the own vessel is of sub-kind Ram, no generic
repulsion contribution is added for any non-friendly Boat contact; when it
is not, every non-friendly Boat contact adds a repulsion contribution —
regardless of the contact's own sub-kind. -/
theorem c1_repulsion_keyed_on_own_subkind (env : Env) (playerId : Nat)
    (boat : Contact) (data : EntityData) (st : Vec2 × Option (Contact × ℚ))
    (contact : Contact) (t : Nat)
    (hid : ¬ contact.id = boat.id)
    (ht : contact.entityType = some t)
    (hkind : (env.dataOf t).kind = EntityKind.Boat)
    (hfr : ¬ contact.playerId = some playerId) :
    (scanStep env playerId boat data st contact).1 =
      if data.subKind = EntitySubKind.Ram then st.1
      else repel st.1 (vsub contact.transform.position boat.transform.position)
        (lengthSq (vsub contact.transform.position boat.transform.position)) := by
  by_cases hram : data.subKind = EntitySubKind.Ram <;>
    simp [scanStep, hid, ht, hkind, hfr, hram]

/-- C1 witness: the amended theorem applied to a concrete non-Ram own
vessel and a concrete hostile Ram boat contact. -/
theorem c1_repulsion_keyed_on_own_subkind_witness :
    (scanStep envA 1 selfA (envA.dataOf 1)
        (((0, 0) : Vec2), (none : Option (Contact × ℚ))) contactRam).1 =
      if (envA.dataOf 1).subKind = EntitySubKind.Ram then ((0 : ℚ), (0 : ℚ))
      else repel (0, 0)
        (vsub contactRam.transform.position selfA.transform.position)
        (lengthSq (vsub contactRam.transform.position selfA.transform.position)) :=
  c1_repulsion_keyed_on_own_subkind envA 1 selfA (envA.dataOf 1)
    (((0, 0) : Vec2), (none : Option (Contact × ℚ))) contactRam 4
    (by decide) rfl rfl (by decide)

/-- C1 counterexample: a hostile Boat contact of sub-kind Ram sensed by a
non-Ram own vessel receives the generic repulsion contribution (the
movement vector changes by exactly the repel term), contradicting the
claim that a hostile Ram boat contact is excluded from generic
repulsion. -/
theorem c1_counterexample :
    (envA.dataOf 4).kind = EntityKind.Boat ∧
    (envA.dataOf 4).subKind = EntitySubKind.Ram ∧
    contactRam.entityType = some 4 ∧
    contactRam.playerId ≠ some 1 ∧
    (envA.dataOf 1).subKind ≠ EntitySubKind.Ram ∧
    (scanStep envA 1 selfA (envA.dataOf 1)
        (((0, 0) : Vec2), (none : Option (Contact × ℚ))) contactRam).1 =
      repel (0, 0) (3, 4) 25 ∧
    (scanStep envA 1 selfA (envA.dataOf 1)
        (((0, 0) : Vec2), (none : Option (Contact × ℚ))) contactRam).1 ≠
      (0, 0) := by
  with_unfolding_all decide

end MK48
